import Mathlib

/-!
Shallow embedding of the H.265 RTP depacketizer from
`src/Debug/h265_receiver.py` (the online receiver, namespaced `Receiver`)
and `src/Debug/extract_h265.py` (the offline extractor, namespaced
`Extract`).  Bytes are naturals; byte strings are `List Nat`; wall-clock
instants (Python `time.time()` floats, only compared against the 0.5 s
timeout) are rationals.  Python dicts are association lists that keep
insertion order: assignment replaces the value in place when the key is
present and appends at the end otherwise, exactly as dict iteration order
behaves in the source.
-/

/-- `struct.unpack("!H", l[i:i+2])`: big-endian 16-bit read at offset `i`. -/
def be16 (l : List Nat) (i : Nat) : Nat := l.getD i 0 * 256 + l.getD (i + 1) 0

/-- `struct.unpack("!I", l[i:i+4])`: big-endian 32-bit read at offset `i`. -/
def be32 (l : List Nat) (i : Nat) : Nat :=
  l.getD i 0 * 16777216 + l.getD (i + 1) 0 * 65536 + l.getD (i + 2) 0 * 256 + l.getD (i + 3) 0

/-- `struct.pack("!H", x)`: the two big-endian bytes of a 16-bit value. -/
def pack16 (x : Nat) : List Nat := [x / 256, x % 256]

/-- The Annex B start code `b"\x00\x00\x00\x01"` prepended to every emitted NAL. -/
def startCode : List Nat := [0, 0, 0, 1]

/-- The fields `RTPPacket.parse` stores on the object (both files have the
same `RTPPacket` class). -/
structure RTPPacket where
  version : Nat
  padding : Nat
  extension : Nat
  cc : Nat
  marker : Nat
  payload_type : Nat
  sequence : Nat
  timestamp : Nat
  ssrc : Nat
  payload : List Nat
deriving DecidableEq

/-- `RTPPacket.parse` from both source files: raises (here `none`) only when
the datagram is shorter than 12 bytes; the extension header is skipped only
when it fits inside the datagram; the payload is the (clamping) tail slice
`data[header_size:]`. -/
def RTPPacket.parse (data : List Nat) : Option RTPPacket :=
  if data.length < 12 then none
  else
    let byte0 := data.getD 0 0
    let byte1 := data.getD 1 0
    let cc := byte0 &&& 15
    let ext := byte0 >>> 4 &&& 1
    let hs0 := 12 + cc * 4
    let hs := if ext = 1 ∧ hs0 + 4 ≤ data.length
              then hs0 + 4 + 4 * be16 data (hs0 + 2) else hs0
    some { version := byte0 >>> 6 &&& 3
           padding := byte0 >>> 5 &&& 1
           extension := ext
           cc := cc
           marker := byte1 >>> 7 &&& 1
           payload_type := byte1 &&& 127
           sequence := be16 data 2
           timestamp := be32 data 4
           ssrc := be32 data 8
           payload := data.drop hs }

/-- Python `min(iterable, key=f)`: the first element attaining the minimal
key, `none` on the empty list. -/
def minByKey {α : Type} (f : α → Nat) : List α → Option α
  | [] => none
  | a :: l =>
    match minByKey f l with
    | none => some a
    | some b => if f b < f a then some b else some a

/-- The composite dict key `(packet.ssrc, packet.timestamp, packet.sequence)`
used by the online receiver's fragment dict. -/
structure FragKey where
  ssrc : Nat
  ts : Nat
  start_seq : Nat
deriving DecidableEq

/-- One value of the receiver's fragment dict:
`{'data': ..., 'last_seq': ..., 'timestamp': time.time()}`. -/
structure FragEntry where
  data : List Nat
  last_seq : Nat
  timestamp : ℚ
deriving DecidableEq

/-- The receiver's `self.fragments` dict, as an insertion-ordered list. -/
abbrev FragStore := List (FragKey × FragEntry)

/-- Dict assignment `self.fragments[key] = v` (replace in place, else append). -/
def insertFrag : FragStore → FragKey → FragEntry → FragStore
  | [], k, v => [(k, v)]
  | kv :: rest, k, v => if kv.1 = k then (k, v) :: rest else kv :: insertFrag rest k v

/-- `del self.fragments[key]` (dict keys are unique, so remove the first). -/
def eraseFrag : FragStore → FragKey → FragStore
  | [], _ => []
  | kv :: rest, k => if kv.1 = k then rest else kv :: eraseFrag rest k

/-- The NAL header both `handle_fu` variants reconstruct:
`(nal_header & 0x81FF) | (fu_type << 9)` with `fu_type = payload[2] & 0x3F`. -/
def reconHeader (p : RTPPacket) : Nat :=
  (be16 p.payload 0 &&& 0x81FF) ||| ((p.payload.getD 2 0 &&& 63) <<< 9)

/-- The candidate list of the receiver's `handle_fu`:
`[(k, v) for k, v in self.fragments.items() if k[0] == ssrc and k[1] == ts]`. -/
def Receiver.fuCandidates (st : FragStore) (p : RTPPacket) : FragStore :=
  st.filter (fun kv => decide (kv.1.ssrc = p.ssrc ∧ kv.1.ts = p.timestamp))

/-- The selection key `abs(packet.sequence - v['last_seq'] - 1)`; Python ints
are unbounded, so this is plain integer distance with no 16-bit wraparound. -/
def Receiver.fuDist (seq last : Nat) : Nat := ((seq : ℤ) - (last : ℤ) - 1).natAbs

/-- `H265RTPDepacketizer.handle_fu` of `h265_receiver.py`.  Returns the new
fragment dict and the optional emitted byte string. -/
def Receiver.handle_fu (st : FragStore) (p : RTPPacket) (now : ℚ) :
    FragStore × Option (List Nat) :=
  if p.payload.length < 3 then (st, none)
  else
    let fu_header := p.payload.getD 2 0
    let start_bit := fu_header >>> 7 &&& 1
    let end_bit := fu_header >>> 6 &&& 1
    if start_bit = 1 then
      (insertFrag st ⟨p.ssrc, p.timestamp, p.sequence⟩
        ⟨pack16 (reconHeader p) ++ p.payload.drop 3, p.sequence, now⟩, none)
    else
      match minByKey (fun kv => Receiver.fuDist p.sequence kv.2.last_seq)
          (Receiver.fuCandidates st p) with
      | none => (st, none)
      | some kv =>
        if end_bit = 1 then
          (eraseFrag st kv.1, some (startCode ++ (kv.2.data ++ p.payload.drop 3)))
        else
          (insertFrag st kv.1 ⟨kv.2.data ++ p.payload.drop 3, p.sequence, now⟩, none)

/-- The aggregation-packet loop shared verbatim by both files' `handle_ap`:
walk `payload[2:]`, reading a 16-bit size then that many NAL bytes, stopping
as soon as a size field or a NAL body would run past the end. -/
def apLoop : List Nat → List (List Nat)
  | [] => []
  | [_] => []
  | a :: b :: rest =>
    if a * 256 + b ≤ rest.length then
      rest.take (a * 256 + b) :: apLoop (rest.drop (a * 256 + b))
    else []
termination_by l => l.length
decreasing_by
  simp only [List.length_drop, List.length_cons]
  omega

/-- `H265RTPDepacketizer.handle_ap` (identical in both files): prefix each
parsed NAL with the start code and join; `None` when no NAL was parsed. -/
def handle_ap (p : RTPPacket) : Option (List Nat) :=
  let nalus := (apLoop (p.payload.drop 2)).map (fun n => startCode ++ n)
  if nalus = [] then none else some nalus.flatten

/-- `H265RTPDepacketizer.handle_single_nal` (identical in both files). -/
def handle_single_nal (p : RTPPacket) : List Nat := startCode ++ p.payload

/-- `H265RTPDepacketizer.process_packet` of `h265_receiver.py`. -/
def Receiver.process_packet (st : FragStore) (p : RTPPacket) (now : ℚ) :
    FragStore × Option (List Nat) :=
  if p.payload.length < 2 then (st, none)
  else
    let nal_type := be16 p.payload 0 >>> 9 &&& 63
    if nal_type = 49 then Receiver.handle_fu st p now
    else if nal_type = 48 then (st, handle_ap p)
    else (st, some (handle_single_nal p))

/-- `H265RTPDepacketizer.cleanup_old_fragments` of `h265_receiver.py`:
delete every entry with `current_time - v['timestamp'] > 0.5`. -/
def Receiver.cleanup_old_fragments (st : FragStore) (now : ℚ) : FragStore :=
  st.filter (fun kv => decide (¬ now - kv.2.timestamp > 1/2))

/-- Feed a list of (packet, arrival instant) pairs through the receiver's
`process_packet`, collecting each call's return value. -/
def Receiver.processAll (st : FragStore) :
    List (RTPPacket × ℚ) → FragStore × List (Option (List Nat))
  | [] => (st, [])
  | pn :: rest =>
    let r := Receiver.process_packet st pn.1 pn.2
    let r2 := Receiver.processAll r.1 rest
    (r2.1, r.2 :: r2.2)

/-- The extractor's `self.fragments` dict: keyed by RTP timestamp only. -/
abbrev StoreE := List (Nat × List Nat)

/-- Dict assignment for the extractor's store. -/
def insertE : StoreE → Nat → List Nat → StoreE
  | [], ts, buf => [(ts, buf)]
  | kv :: rest, ts, buf =>
    if kv.1 = ts then (ts, buf) :: rest else kv :: insertE rest ts buf

/-- `self.fragments.pop(ts)`'s removal effect. -/
def eraseE : StoreE → Nat → StoreE
  | [], _ => []
  | kv :: rest, ts => if kv.1 = ts then rest else kv :: eraseE rest ts

/-- `packet.timestamp in self.fragments` / `self.fragments[ts]` lookup. -/
def lookupE : StoreE → Nat → Option (List Nat)
  | [], _ => none
  | kv :: rest, ts => if kv.1 = ts then some kv.2 else lookupE rest ts

/-- `H265RTPDepacketizer.handle_fu` of `extract_h265.py`. -/
def Extract.handle_fu (st : StoreE) (p : RTPPacket) : StoreE × Option (List Nat) :=
  if p.payload.length < 3 then (st, none)
  else
    let fu_header := p.payload.getD 2 0
    let start_bit := fu_header >>> 7 &&& 1
    let end_bit := fu_header >>> 6 &&& 1
    if start_bit = 1 then
      (insertE st p.timestamp (pack16 (reconHeader p) ++ p.payload.drop 3), none)
    else
      match lookupE st p.timestamp with
      | none => (st, none)
      | some buf =>
        if end_bit = 1 then
          (eraseE st p.timestamp, some (startCode ++ (buf ++ p.payload.drop 3)))
        else
          (insertE st p.timestamp (buf ++ p.payload.drop 3), none)

/-- `H265RTPDepacketizer.process_packet` of `extract_h265.py`. -/
def Extract.process_packet (st : StoreE) (p : RTPPacket) : StoreE × Option (List Nat) :=
  if p.payload.length < 2 then (st, none)
  else
    let nal_type := be16 p.payload 0 >>> 9 &&& 63
    if nal_type = 49 then Extract.handle_fu st p
    else if nal_type = 48 then (st, handle_ap p)
    else (st, some (handle_single_nal p))

/-- Feed a list of packets through the extractor's `process_packet`. -/
def Extract.processAll (st : StoreE) :
    List RTPPacket → StoreE × List (Option (List Nat))
  | [] => (st, [])
  | p :: rest =>
    let r := Extract.process_packet st p
    let r2 := Extract.processAll r.1 rest
    (r2.1, r.2 :: r2.2)

/-- Modelled from the spec: the claim C3 distance "computed modulo 16-bit
wraparound" (nothing in the source computes this; it is stated only in the
spec).  The circular 16-bit distance between the incoming `sequence` and a
candidate's `last_sequence + 1`. -/
def wrapDist (seq last : Nat) : Nat :=
  min ((((seq : ℤ) - (last : ℤ) - 1) % 65536).toNat)
      ((((last : ℤ) + 1 - (seq : ℤ)) % 65536).toNat)

/-- A raw RTP packet view with the given addressing fields and payload
(fixed header fields as a conformant H.265 sender would set them). -/
def mkPkt (ssrc ts seq : Nat) (payload : List Nat) : RTPPacket :=
  { version := 2, padding := 0, extension := 0, cc := 0, marker := 0,
    payload_type := 96, sequence := seq, timestamp := ts, ssrc := ssrc,
    payload := payload }

/-- An FU packet: 2-byte PayloadHdr `h0 h1`, FU header byte `fb`, fragment
body `body`. -/
def mkFU (h0 h1 fb : Nat) (body : List Nat) (ssrc ts seq : Nat) : RTPPacket :=
  mkPkt ssrc ts seq (h0 :: h1 :: fb :: body)

/-- Sequence numbers `(s+1) % 2^16, (s+2) % 2^16, ...` paired with the middle
fragment bodies, as a lossless in-order sender produces them. -/
def fuSeqBodies (s : Nat) : List (List Nat) → List (Nat × List Nat)
  | [] => []
  | b :: rest => ((s + 1) % 65536, b) :: fuSeqBodies (s + 1) rest

/-- The middle FU packets (start and end bits clear, FU type `t`). -/
def midPacketList (h0 h1 t ssrc ts : Nat) (l : List (Nat × List Nat)) : List RTPPacket :=
  l.map (fun sb => mkFU h0 h1 t sb.2 ssrc ts sb.1)

/-- The packets of one NAL fragmented into a start packet (FU header
`0x80 | t`), middle packets (`t`), and an end packet (`0x40 | t`), all with
the same SSRC and timestamp and consecutive 16-bit sequence numbers. -/
def fuPacketList (h0 h1 t ssrc ts s : Nat) (body0 : List Nat)
    (mids : List (List Nat)) (bodyE : List Nat) : List RTPPacket :=
  mkFU h0 h1 (128 + t) body0 ssrc ts (s % 65536) ::
    (midPacketList h0 h1 t ssrc ts (fuSeqBodies s mids) ++
      [mkFU h0 h1 (64 + t) bodyE ssrc ts ((s + 1 + mids.length) % 65536)])

/-- The same packets paired with a common arrival instant for the receiver. -/
def fuPackets (h0 h1 t ssrc ts s : Nat) (now : ℚ) (body0 : List Nat)
    (mids : List (List Nat)) (bodyE : List Nat) : List (RTPPacket × ℚ) :=
  (fuPacketList h0 h1 t ssrc ts s body0 mids bodyE).map (fun p => (p, now))

/-- `(size_be16 ++ nal) ++ ...`: an aggregation-packet body packing the given
NALs per RFC 7798. -/
def packAP : List (List Nat) → List Nat
  | [] => []
  | n :: rest => n.length / 256 :: n.length % 256 :: (n ++ packAP rest)

/-! ### Arithmetic facts about FU header bytes -/

/-- Decoding the three FU-header shapes `0x80|t` (start), `0x40|t` (end),
`0xC0|t` (start and end), and bare `t` (middle), for every 6-bit type. -/
theorem fu_header_bits : ∀ t < 64,
    (128 + t) >>> 7 &&& 1 = 1 ∧ (64 + t) >>> 7 &&& 1 = 0 ∧
    (192 + t) >>> 7 &&& 1 = 1 ∧ t >>> 7 &&& 1 = 0 ∧
    (64 + t) >>> 6 &&& 1 = 1 ∧ t >>> 6 &&& 1 = 0 ∧
    (128 + t) &&& 63 = t ∧ (64 + t) &&& 63 = t ∧
    t &&& 63 = t ∧ (192 + t) &&& 63 = t := by decide

/-! ### Properties of `minByKey` (Python `min` with a key function) -/

theorem minByKey_eq_none {α : Type} (f : α → Nat) (l : List α)
    (h : minByKey f l = none) : l = [] := by
  cases l with
  | nil => rfl
  | cons x l =>
    exfalso
    rw [minByKey] at h
    rcases hm : minByKey f l with _ | b <;> rw [hm] at h <;> simp at h
    split at h <;> simp at h

theorem minByKey_mem {α : Type} (f : α → Nat) (l : List α) (a : α)
    (h : minByKey f l = some a) : a ∈ l := by
  induction l generalizing a with
  | nil => simp [minByKey] at h
  | cons x l ih =>
    rw [minByKey] at h
    rcases hm : minByKey f l with _ | b <;> rw [hm] at h
    · exact Option.some.inj h ▸ List.mem_cons_self x l
    · dsimp only at h
      by_cases hlt : f b < f x
      · rw [if_pos hlt] at h
        exact List.mem_cons_of_mem _ (Option.some.inj h ▸ ih b hm)
      · rw [if_neg hlt] at h
        exact Option.some.inj h ▸ List.mem_cons_self x l

theorem minByKey_le {α : Type} (f : α → Nat) (l : List α) (a : α)
    (h : minByKey f l = some a) : ∀ b ∈ l, f a ≤ f b := by
  induction l generalizing a with
  | nil => simp [minByKey] at h
  | cons x l ih =>
    intro c hc
    rw [minByKey] at h
    rcases hm : minByKey f l with _ | m <;> rw [hm] at h
    · have hl : l = [] := minByKey_eq_none f l hm
      subst hl
      have hxa := Option.some.inj h
      simp at hc
      rw [← hxa, hc]
    · dsimp only at h
      rcases List.mem_cons.mp hc with hcx | hcl
      · subst hcx
        by_cases hlt : f m < f c
        · rw [if_pos hlt] at h
          have hma := Option.some.inj h
          rw [← hma]
          omega
        · rw [if_neg hlt] at h
          have hca := Option.some.inj h
          rw [← hca]
      · by_cases hlt : f m < f x
        · rw [if_pos hlt] at h
          have hma := Option.some.inj h
          rw [← hma]
          exact ih m hm c hcl
        · rw [if_neg hlt] at h
          have hxa := Option.some.inj h
          have h2 := ih m hm c hcl
          rw [← hxa]
          omega

/-! ### Properties of the dict operations -/

theorem insertFrag_self_mem (st : FragStore) (k : FragKey) (v : FragEntry) :
    (k, v) ∈ insertFrag st k v := by
  induction st with
  | nil => simp [insertFrag]
  | cons kv rest ih =>
    rw [insertFrag]
    by_cases h : kv.1 = k
    · rw [if_pos h]; exact List.mem_cons_self _ _
    · rw [if_neg h]; exact List.mem_cons_of_mem _ ih

theorem insertFrag_mem_of_ne (st : FragStore) (k : FragKey) (v : FragEntry)
    (kv' : FragKey × FragEntry) (h : kv' ∈ st) (hne : kv'.1 ≠ k) :
    kv' ∈ insertFrag st k v := by
  induction st with
  | nil => cases h
  | cons kv0 rest ih =>
    rw [insertFrag]
    rcases List.mem_cons.mp h with h1 | h1
    · subst h1
      rw [if_neg hne]
      exact List.mem_cons_self _ _
    · by_cases h0 : kv0.1 = k
      · rw [if_pos h0]; exact List.mem_cons_of_mem _ h1
      · rw [if_neg h0]; exact List.mem_cons_of_mem _ (ih h1)

theorem insertE_key_val (st : StoreE) (ts : Nat) (buf : List Nat)
    (hnd : (st.map Prod.fst).Nodup) :
    ∀ kv ∈ insertE st ts buf, kv.1 = ts → kv.2 = buf := by
  induction st with
  | nil =>
    intro kv hkv _
    rw [insertE] at hkv
    simp at hkv
    rw [hkv]
  | cons kv0 rest ih =>
    intro kv hkv hk
    rw [insertE] at hkv
    by_cases h : kv0.1 = ts
    · rw [if_pos h] at hkv
      rcases List.mem_cons.mp hkv with h1 | h1
      · rw [h1]
      · exfalso
        have hmem : kv.1 ∈ rest.map Prod.fst := List.mem_map_of_mem _ h1
        rw [hk, ← h] at hmem
        exact (List.nodup_cons.mp hnd).1 hmem
    · rw [if_neg h] at hkv
      rcases List.mem_cons.mp hkv with h1 | h1
      · exfalso; rw [h1] at hk; exact h hk
      · exact ih (List.nodup_cons.mp hnd).2 kv h1 hk

theorem insertFrag_cons_self (k : FragKey) (v v' : FragEntry) (rest : FragStore) :
    insertFrag ((k, v) :: rest) k v' = (k, v') :: rest := by
  rw [insertFrag, if_pos rfl]

theorem eraseFrag_cons_self (k : FragKey) (v : FragEntry) (rest : FragStore) :
    eraseFrag ((k, v) :: rest) k = rest := by
  rw [eraseFrag, if_pos rfl]

theorem minByKey_singleton {α : Type} (f : α → Nat) (a : α) :
    minByKey f [a] = some a := rfl

theorem recvCandidatesSingleton (k : FragKey) (v : FragEntry) (p : RTPPacket)
    (hss : k.ssrc = p.ssrc) (hts : k.ts = p.timestamp) :
    Receiver.fuCandidates [(k, v)] p = [(k, v)] := by
  simp [Receiver.fuCandidates, hss, hts]

/-! ### Branch lemmas for the two `handle_fu` variants -/

theorem recvProcessFu (st : FragStore) (p : RTPPacket) (now : ℚ)
    (h2 : ¬ p.payload.length < 2) (h49 : be16 p.payload 0 >>> 9 &&& 63 = 49) :
    Receiver.process_packet st p now = Receiver.handle_fu st p now := by
  rw [Receiver.process_packet, if_neg h2]
  simp [h49]

theorem recvFuStart (st : FragStore) (p : RTPPacket) (now : ℚ)
    (h3 : ¬ p.payload.length < 3) (hs : p.payload.getD 2 0 >>> 7 &&& 1 = 1) :
    Receiver.handle_fu st p now =
      (insertFrag st ⟨p.ssrc, p.timestamp, p.sequence⟩
        ⟨pack16 (reconHeader p) ++ p.payload.drop 3, p.sequence, now⟩, none) := by
  rw [Receiver.handle_fu, if_neg h3]
  dsimp only
  rw [if_pos hs]

theorem recvFuOrphan (st : FragStore) (p : RTPPacket) (now : ℚ)
    (h3 : ¬ p.payload.length < 3) (hs : p.payload.getD 2 0 >>> 7 &&& 1 ≠ 1)
    (hm : minByKey (fun kv => Receiver.fuDist p.sequence kv.2.last_seq)
        (Receiver.fuCandidates st p) = none) :
    Receiver.handle_fu st p now = (st, none) := by
  rw [Receiver.handle_fu, if_neg h3]
  dsimp only
  rw [if_neg hs, hm]

theorem recvFuAppend (st : FragStore) (p : RTPPacket) (now : ℚ)
    (kv : FragKey × FragEntry)
    (h3 : ¬ p.payload.length < 3) (hs : p.payload.getD 2 0 >>> 7 &&& 1 ≠ 1)
    (he : p.payload.getD 2 0 >>> 6 &&& 1 ≠ 1)
    (hm : minByKey (fun kv => Receiver.fuDist p.sequence kv.2.last_seq)
        (Receiver.fuCandidates st p) = some kv) :
    Receiver.handle_fu st p now =
      (insertFrag st kv.1 ⟨kv.2.data ++ p.payload.drop 3, p.sequence, now⟩, none) := by
  rw [Receiver.handle_fu, if_neg h3]
  dsimp only
  rw [if_neg hs, hm]
  dsimp only
  rw [if_neg he]

theorem recvFuComplete (st : FragStore) (p : RTPPacket) (now : ℚ)
    (kv : FragKey × FragEntry)
    (h3 : ¬ p.payload.length < 3) (hs : p.payload.getD 2 0 >>> 7 &&& 1 ≠ 1)
    (he : p.payload.getD 2 0 >>> 6 &&& 1 = 1)
    (hm : minByKey (fun kv => Receiver.fuDist p.sequence kv.2.last_seq)
        (Receiver.fuCandidates st p) = some kv) :
    Receiver.handle_fu st p now =
      (eraseFrag st kv.1, some (startCode ++ (kv.2.data ++ p.payload.drop 3))) := by
  rw [Receiver.handle_fu, if_neg h3]
  dsimp only
  rw [if_neg hs, hm]
  dsimp only
  rw [if_pos he]

theorem extrProcessFu (st : StoreE) (p : RTPPacket)
    (h2 : ¬ p.payload.length < 2) (h49 : be16 p.payload 0 >>> 9 &&& 63 = 49) :
    Extract.process_packet st p = Extract.handle_fu st p := by
  rw [Extract.process_packet, if_neg h2]
  simp [h49]

theorem extrFuStart (st : StoreE) (p : RTPPacket)
    (h3 : ¬ p.payload.length < 3) (hs : p.payload.getD 2 0 >>> 7 &&& 1 = 1) :
    Extract.handle_fu st p =
      (insertE st p.timestamp (pack16 (reconHeader p) ++ p.payload.drop 3), none) := by
  rw [Extract.handle_fu, if_neg h3]
  dsimp only
  rw [if_pos hs]

theorem extrFuOrphan (st : StoreE) (p : RTPPacket)
    (h3 : ¬ p.payload.length < 3) (hs : p.payload.getD 2 0 >>> 7 &&& 1 ≠ 1)
    (hl : lookupE st p.timestamp = none) :
    Extract.handle_fu st p = (st, none) := by
  rw [Extract.handle_fu, if_neg h3]
  dsimp only
  rw [if_neg hs, hl]

theorem extrFuAppend (st : StoreE) (p : RTPPacket) (buf : List Nat)
    (h3 : ¬ p.payload.length < 3) (hs : p.payload.getD 2 0 >>> 7 &&& 1 ≠ 1)
    (he : p.payload.getD 2 0 >>> 6 &&& 1 ≠ 1)
    (hl : lookupE st p.timestamp = some buf) :
    Extract.handle_fu st p =
      (insertE st p.timestamp (buf ++ p.payload.drop 3), none) := by
  rw [Extract.handle_fu, if_neg h3]
  dsimp only
  rw [if_neg hs, hl]
  dsimp only
  rw [if_neg he]

theorem extrFuComplete (st : StoreE) (p : RTPPacket) (buf : List Nat)
    (h3 : ¬ p.payload.length < 3) (hs : p.payload.getD 2 0 >>> 7 &&& 1 ≠ 1)
    (he : p.payload.getD 2 0 >>> 6 &&& 1 = 1)
    (hl : lookupE st p.timestamp = some buf) :
    Extract.handle_fu st p =
      (eraseE st p.timestamp, some (startCode ++ (buf ++ p.payload.drop 3))) := by
  rw [Extract.handle_fu, if_neg h3]
  dsimp only
  rw [if_neg hs, hl]
  dsimp only
  rw [if_pos he]

/-! ### `processAll` distributes over append -/

theorem recvProcessAllAppend (st : FragStore) (l1 l2 : List (RTPPacket × ℚ)) :
    Receiver.processAll st (l1 ++ l2) =
      ((Receiver.processAll (Receiver.processAll st l1).1 l2).1,
        (Receiver.processAll st l1).2 ++
          (Receiver.processAll (Receiver.processAll st l1).1 l2).2) := by
  induction l1 generalizing st with
  | nil => simp [Receiver.processAll]
  | cons pn rest ih =>
    simp only [List.cons_append, Receiver.processAll, List.append_eq]
    rw [ih]

theorem extrProcessAllAppend (st : StoreE) (l1 l2 : List RTPPacket) :
    Extract.processAll st (l1 ++ l2) =
      ((Extract.processAll (Extract.processAll st l1).1 l2).1,
        (Extract.processAll st l1).2 ++
          (Extract.processAll (Extract.processAll st l1).1 l2).2) := by
  induction l1 generalizing st with
  | nil => simp [Extract.processAll]
  | cons p rest ih =>
    simp only [List.cons_append, Extract.processAll, List.append_eq]
    rw [ih]

/-! ### Stepping concrete FU packet shapes through `process_packet` -/

theorem recvStepStart (st : FragStore) (h0 h1 t ssrc ts sq : Nat)
    (body : List Nat) (now : ℚ) (ht : t < 64)
    (h49 : (h0 * 256 + h1) >>> 9 &&& 63 = 49) :
    Receiver.process_packet st (mkFU h0 h1 (128 + t) body ssrc ts sq) now =
      (insertFrag st ⟨ssrc, ts, sq⟩
        ⟨pack16 (((h0 * 256 + h1) &&& 33279) ||| (t <<< 9)) ++ body, sq, now⟩, none) := by
  have hb := fu_header_bits t ht
  have h2 : ¬ (mkFU h0 h1 (128 + t) body ssrc ts sq).payload.length < 2 := by
    simp only [mkFU, mkPkt, List.length_cons]
    omega
  have h3 : ¬ (mkFU h0 h1 (128 + t) body ssrc ts sq).payload.length < 3 := by
    simp only [mkFU, mkPkt, List.length_cons]
    omega
  rw [recvProcessFu _ _ _ h2 h49,
    recvFuStart _ _ _ h3 hb.1]
  have hr : reconHeader (mkFU h0 h1 (128 + t) body ssrc ts sq) =
      ((h0 * 256 + h1) &&& 33279) ||| (t <<< 9) := by
    show ((h0 * 256 + h1) &&& 33279) ||| (((128 + t) &&& 63) <<< 9) = _
    rw [hb.2.2.2.2.2.2.1]
  rw [hr]
  rfl

theorem recvStepMiddle (k : FragKey) (v : FragEntry) (h0 h1 t ssrc ts sq : Nat)
    (body : List Nat) (now : ℚ) (ht : t < 64)
    (h49 : (h0 * 256 + h1) >>> 9 &&& 63 = 49)
    (hss : k.ssrc = ssrc) (hts : k.ts = ts) :
    Receiver.process_packet [(k, v)] (mkFU h0 h1 t body ssrc ts sq) now =
      ([(k, ⟨v.data ++ body, sq, now⟩)], none) := by
  have hb := fu_header_bits t ht
  have h2 : ¬ (mkFU h0 h1 t body ssrc ts sq).payload.length < 2 := by
    simp only [mkFU, mkPkt, List.length_cons]
    omega
  have h3 : ¬ (mkFU h0 h1 t body ssrc ts sq).payload.length < 3 := by
    simp only [mkFU, mkPkt, List.length_cons]
    omega
  have hs : (mkFU h0 h1 t body ssrc ts sq).payload.getD 2 0 >>> 7 &&& 1 ≠ 1 := by
    intro hc
    have hc' : t >>> 7 &&& 1 = 1 := hc
    rw [hb.2.2.2.1] at hc'
    omega
  have he : (mkFU h0 h1 t body ssrc ts sq).payload.getD 2 0 >>> 6 &&& 1 ≠ 1 := by
    intro hc
    have hc' : t >>> 6 &&& 1 = 1 := hc
    rw [hb.2.2.2.2.2.1] at hc'
    omega
  have hmin : minByKey
      (fun kv => Receiver.fuDist (mkFU h0 h1 t body ssrc ts sq).sequence kv.2.last_seq)
      (Receiver.fuCandidates [(k, v)] (mkFU h0 h1 t body ssrc ts sq)) = some (k, v) := by
    rw [recvCandidatesSingleton k v _ hss hts]
    rfl
  rw [recvProcessFu _ _ _ h2 h49,
    recvFuAppend _ _ _ (k, v) h3 hs he hmin]
  dsimp only
  rw [insertFrag_cons_self]
  rfl

theorem recvStepEnd (k : FragKey) (v : FragEntry) (h0 h1 t ssrc ts sq : Nat)
    (body : List Nat) (now : ℚ) (ht : t < 64)
    (h49 : (h0 * 256 + h1) >>> 9 &&& 63 = 49)
    (hss : k.ssrc = ssrc) (hts : k.ts = ts) :
    Receiver.process_packet [(k, v)] (mkFU h0 h1 (64 + t) body ssrc ts sq) now =
      ([], some (startCode ++ (v.data ++ body))) := by
  have hb := fu_header_bits t ht
  have h2 : ¬ (mkFU h0 h1 (64 + t) body ssrc ts sq).payload.length < 2 := by
    simp only [mkFU, mkPkt, List.length_cons]
    omega
  have h3 : ¬ (mkFU h0 h1 (64 + t) body ssrc ts sq).payload.length < 3 := by
    simp only [mkFU, mkPkt, List.length_cons]
    omega
  have hs : (mkFU h0 h1 (64 + t) body ssrc ts sq).payload.getD 2 0 >>> 7 &&& 1 ≠ 1 := by
    intro hc
    have hc' : (64 + t) >>> 7 &&& 1 = 1 := hc
    rw [hb.2.1] at hc'
    omega
  have he : (mkFU h0 h1 (64 + t) body ssrc ts sq).payload.getD 2 0 >>> 6 &&& 1 = 1 :=
    hb.2.2.2.2.1
  have hmin : minByKey
      (fun kv => Receiver.fuDist (mkFU h0 h1 (64 + t) body ssrc ts sq).sequence kv.2.last_seq)
      (Receiver.fuCandidates [(k, v)] (mkFU h0 h1 (64 + t) body ssrc ts sq)) = some (k, v) := by
    rw [recvCandidatesSingleton k v _ hss hts]
    rfl
  rw [recvProcessFu _ _ _ h2 h49,
    recvFuComplete _ _ _ (k, v) h3 hs he hmin]
  dsimp only
  rw [eraseFrag_cons_self]
  rfl

/-! ### Helper facts about the packet-building functions -/

theorem fuSeqBodies_map_snd (s : Nat) (l : List (List Nat)) :
    (fuSeqBodies s l).map Prod.snd = l := by
  induction l generalizing s with
  | nil => rfl
  | cons b rest ih => simp [fuSeqBodies, ih]

theorem fuSeqBodies_length (s : Nat) (l : List (List Nat)) :
    (fuSeqBodies s l).length = l.length := by
  induction l generalizing s with
  | nil => rfl
  | cons b rest ih => simp [fuSeqBodies, ih]

/-- Running any run of middle fragments against a singleton store appends all
their bodies to the stored buffer and emits nothing. -/
theorem recvMidsRun (h0 h1 t ssrc ts : Nat) (now : ℚ) (ht : t < 64)
    (h49 : (h0 * 256 + h1) >>> 9 &&& 63 = 49) :
    ∀ (l : List (Nat × List Nat)) (k : FragKey) (v : FragEntry),
      k.ssrc = ssrc → k.ts = ts →
      ∃ v' : FragEntry,
        Receiver.processAll [(k, v)]
            ((midPacketList h0 h1 t ssrc ts l).map (fun p => (p, now))) =
          ([(k, v')], List.replicate l.length none) ∧
        v'.data = v.data ++ (l.map Prod.snd).flatten := by
  intro l
  induction l with
  | nil =>
    intro k v hss hts
    exact ⟨v, rfl, by simp⟩
  | cons sb rest ih =>
    intro k v hss hts
    obtain ⟨v', hrun, hdata⟩ := ih k ⟨v.data ++ sb.2, sb.1, now⟩ hss hts
    refine ⟨v', ?_, ?_⟩
    · rw [show midPacketList h0 h1 t ssrc ts (sb :: rest) =
          mkFU h0 h1 t sb.2 ssrc ts sb.1 :: midPacketList h0 h1 t ssrc ts rest from rfl]
      simp only [List.map_cons, Receiver.processAll]
      rw [recvStepMiddle k v h0 h1 t ssrc ts sb.1 sb.2 now ht h49 hss hts]
      dsimp only
      rw [hrun]
      simp [List.replicate_succ]
    · rw [hdata]
      simp [List.append_assoc]

theorem insertFrag_nil (k : FragKey) (v : FragEntry) : insertFrag [] k v = [(k, v)] := rfl

/-- A whole fragmented NAL, fed in native order from an empty store, is
reassembled by the receiver: silence until the end packet, then one emission. -/
theorem recvFuRun (h0 h1 t ssrc ts s : Nat) (now : ℚ)
    (body0 bodyE : List Nat) (mids : List (List Nat)) (ht : t < 64)
    (h49 : (h0 * 256 + h1) >>> 9 &&& 63 = 49) :
    Receiver.processAll [] (fuPackets h0 h1 t ssrc ts s now body0 mids bodyE) =
      ([], List.replicate (mids.length + 1) none ++
        [some (startCode ++ pack16 (((h0 * 256 + h1) &&& 33279) ||| (t <<< 9)) ++
          body0 ++ mids.flatten ++ bodyE)]) := by
  obtain ⟨v', hrun, hdata⟩ :=
    recvMidsRun h0 h1 t ssrc ts now ht h49 (fuSeqBodies s mids)
      ⟨ssrc, ts, s % 65536⟩
      ⟨pack16 (((h0 * 256 + h1) &&& 33279) ||| (t <<< 9)) ++ body0, s % 65536, now⟩
      rfl rfl
  rw [fuPackets, fuPacketList]
  simp only [List.map_cons, List.map_append, List.map_nil, Receiver.processAll]
  rw [recvStepStart [] h0 h1 t ssrc ts (s % 65536) body0 now ht h49]
  dsimp only
  rw [insertFrag_nil, recvProcessAllAppend, hrun]
  dsimp only
  simp only [Receiver.processAll]
  rw [recvStepEnd ⟨ssrc, ts, s % 65536⟩ v' h0 h1 t ssrc ts
      ((s + 1 + mids.length) % 65536) bodyE now ht h49 rfl rfl]
  dsimp only
  rw [hdata, fuSeqBodies_map_snd, fuSeqBodies_length]
  simp [List.replicate_succ, List.append_assoc]

theorem insertE_nil (ts : Nat) (buf : List Nat) : insertE [] ts buf = [(ts, buf)] := rfl

theorem insertE_cons_self (ts : Nat) (buf buf' : List Nat) (rest : StoreE) :
    insertE ((ts, buf) :: rest) ts buf' = (ts, buf') :: rest := by
  rw [insertE, if_pos rfl]

theorem eraseE_cons_self (ts : Nat) (buf : List Nat) (rest : StoreE) :
    eraseE ((ts, buf) :: rest) ts = rest := by
  rw [eraseE, if_pos rfl]

theorem lookupE_cons_self (ts : Nat) (buf : List Nat) (rest : StoreE) :
    lookupE ((ts, buf) :: rest) ts = some buf := by
  rw [lookupE, if_pos rfl]

theorem extrStepStart (st : StoreE) (h0 h1 t ssrc ts sq : Nat)
    (body : List Nat) (ht : t < 64)
    (h49 : (h0 * 256 + h1) >>> 9 &&& 63 = 49) :
    Extract.process_packet st (mkFU h0 h1 (128 + t) body ssrc ts sq) =
      (insertE st ts (pack16 (((h0 * 256 + h1) &&& 33279) ||| (t <<< 9)) ++ body),
        none) := by
  have hb := fu_header_bits t ht
  have h2 : ¬ (mkFU h0 h1 (128 + t) body ssrc ts sq).payload.length < 2 := by
    simp only [mkFU, mkPkt, List.length_cons]
    omega
  have h3 : ¬ (mkFU h0 h1 (128 + t) body ssrc ts sq).payload.length < 3 := by
    simp only [mkFU, mkPkt, List.length_cons]
    omega
  rw [extrProcessFu _ _ h2 h49, extrFuStart _ _ h3 hb.1]
  have hr : reconHeader (mkFU h0 h1 (128 + t) body ssrc ts sq) =
      ((h0 * 256 + h1) &&& 33279) ||| (t <<< 9) := by
    show ((h0 * 256 + h1) &&& 33279) ||| (((128 + t) &&& 63) <<< 9) = _
    rw [hb.2.2.2.2.2.2.1]
  rw [hr]
  rfl

theorem extrStepMiddle (buf : List Nat) (h0 h1 t ssrc ts sq : Nat)
    (body : List Nat) (ht : t < 64)
    (h49 : (h0 * 256 + h1) >>> 9 &&& 63 = 49) :
    Extract.process_packet [(ts, buf)] (mkFU h0 h1 t body ssrc ts sq) =
      ([(ts, buf ++ body)], none) := by
  have hb := fu_header_bits t ht
  have h2 : ¬ (mkFU h0 h1 t body ssrc ts sq).payload.length < 2 := by
    simp only [mkFU, mkPkt, List.length_cons]
    omega
  have h3 : ¬ (mkFU h0 h1 t body ssrc ts sq).payload.length < 3 := by
    simp only [mkFU, mkPkt, List.length_cons]
    omega
  have hs : (mkFU h0 h1 t body ssrc ts sq).payload.getD 2 0 >>> 7 &&& 1 ≠ 1 := by
    intro hc
    have hc' : t >>> 7 &&& 1 = 1 := hc
    rw [hb.2.2.2.1] at hc'
    omega
  have he : (mkFU h0 h1 t body ssrc ts sq).payload.getD 2 0 >>> 6 &&& 1 ≠ 1 := by
    intro hc
    have hc' : t >>> 6 &&& 1 = 1 := hc
    rw [hb.2.2.2.2.2.1] at hc'
    omega
  have hl : lookupE [(ts, buf)] (mkFU h0 h1 t body ssrc ts sq).timestamp = some buf :=
    lookupE_cons_self ts buf []
  rw [extrProcessFu _ _ h2 h49,
    extrFuAppend _ _ buf h3 hs he hl]
  rw [show (mkFU h0 h1 t body ssrc ts sq).timestamp = ts from rfl,
    insertE_cons_self]
  rfl

theorem extrStepEnd (buf : List Nat) (h0 h1 t ssrc ts sq : Nat)
    (body : List Nat) (ht : t < 64)
    (h49 : (h0 * 256 + h1) >>> 9 &&& 63 = 49) :
    Extract.process_packet [(ts, buf)] (mkFU h0 h1 (64 + t) body ssrc ts sq) =
      ([], some (startCode ++ (buf ++ body))) := by
  have hb := fu_header_bits t ht
  have h2 : ¬ (mkFU h0 h1 (64 + t) body ssrc ts sq).payload.length < 2 := by
    simp only [mkFU, mkPkt, List.length_cons]
    omega
  have h3 : ¬ (mkFU h0 h1 (64 + t) body ssrc ts sq).payload.length < 3 := by
    simp only [mkFU, mkPkt, List.length_cons]
    omega
  have hs : (mkFU h0 h1 (64 + t) body ssrc ts sq).payload.getD 2 0 >>> 7 &&& 1 ≠ 1 := by
    intro hc
    have hc' : (64 + t) >>> 7 &&& 1 = 1 := hc
    rw [hb.2.1] at hc'
    omega
  have he : (mkFU h0 h1 (64 + t) body ssrc ts sq).payload.getD 2 0 >>> 6 &&& 1 = 1 :=
    hb.2.2.2.2.1
  have hl : lookupE [(ts, buf)] (mkFU h0 h1 (64 + t) body ssrc ts sq).timestamp = some buf :=
    lookupE_cons_self ts buf []
  rw [extrProcessFu _ _ h2 h49,
    extrFuComplete _ _ buf h3 hs he hl]
  rw [show (mkFU h0 h1 (64 + t) body ssrc ts sq).timestamp = ts from rfl,
    eraseE_cons_self]
  rfl

theorem extrMidsRun (h0 h1 t ssrc ts : Nat) (ht : t < 64)
    (h49 : (h0 * 256 + h1) >>> 9 &&& 63 = 49) :
    ∀ (l : List (Nat × List Nat)) (buf : List Nat),
      Extract.processAll [(ts, buf)] (midPacketList h0 h1 t ssrc ts l) =
        ([(ts, buf ++ (l.map Prod.snd).flatten)], List.replicate l.length none) := by
  intro l
  induction l with
  | nil =>
    intro buf
    simp [Extract.processAll, midPacketList]
  | cons sb rest ih =>
    intro buf
    rw [show midPacketList h0 h1 t ssrc ts (sb :: rest) =
        mkFU h0 h1 t sb.2 ssrc ts sb.1 :: midPacketList h0 h1 t ssrc ts rest from rfl]
    simp only [Extract.processAll]
    rw [extrStepMiddle buf h0 h1 t ssrc ts sb.1 sb.2 ht h49]
    dsimp only
    rw [ih (buf ++ sb.2)]
    simp [List.replicate_succ, List.append_assoc]

/-- The extractor reassembles a fragmented NAL fed in native order as well. -/
theorem extrFuRun (h0 h1 t ssrc ts s : Nat)
    (body0 bodyE : List Nat) (mids : List (List Nat)) (ht : t < 64)
    (h49 : (h0 * 256 + h1) >>> 9 &&& 63 = 49) :
    Extract.processAll [] (fuPacketList h0 h1 t ssrc ts s body0 mids bodyE) =
      ([], List.replicate (mids.length + 1) none ++
        [some (startCode ++ pack16 (((h0 * 256 + h1) &&& 33279) ||| (t <<< 9)) ++
          body0 ++ mids.flatten ++ bodyE)]) := by
  rw [fuPacketList]
  simp only [Extract.processAll]
  rw [extrStepStart [] h0 h1 t ssrc ts (s % 65536) body0 ht h49]
  dsimp only
  rw [insertE_nil, extrProcessAllAppend,
    extrMidsRun h0 h1 t ssrc ts ht h49 (fuSeqBodies s mids) _]
  dsimp only
  simp only [Extract.processAll]
  rw [extrStepEnd _ h0 h1 t ssrc ts ((s + 1 + mids.length) % 65536) bodyE ht h49]
  dsimp only
  rw [fuSeqBodies_map_snd, fuSeqBodies_length]
  simp [List.replicate_succ, List.append_assoc]

/-! ### Aggregation-packet lemmas -/

theorem apLoop_pack (nals : List (List Nat)) (hwf : ∀ n ∈ nals, n.length < 65536) :
    apLoop (packAP nals) = nals := by
  induction nals with
  | nil => simp [packAP, apLoop]
  | cons n rest ih =>
    have hsize : n.length / 256 * 256 + n.length % 256 = n.length := by omega
    rw [packAP]
    rw [apLoop, hsize]
    rw [if_pos (by simp [List.length_append])]
    rw [List.take_left, List.drop_left]
    rw [ih (fun m hm => hwf m (List.mem_cons_of_mem n hm))]

theorem apLoop_pack_truncated (nals : List (List Nat)) (a b : Nat) (tail : List Nat)
    (hwf : ∀ n ∈ nals, n.length < 65536) (htr : tail.length < a * 256 + b) :
    apLoop (packAP nals ++ a :: b :: tail) = nals := by
  induction nals with
  | nil =>
    rw [packAP]
    simp only [List.nil_append]
    rw [apLoop]
    rw [if_neg (by omega)]
  | cons n rest ih =>
    have hsize : n.length / 256 * 256 + n.length % 256 = n.length := by omega
    rw [packAP]
    simp only [List.cons_append, List.append_assoc]
    rw [apLoop, hsize]
    rw [if_pos (by simp [List.length_append])]
    rw [List.take_left, List.drop_left]
    rw [ih (fun m hm => hwf m (List.mem_cons_of_mem n hm))]

theorem handle_ap_emits (h0 h1 ssrc ts sq : Nat) (rest : List Nat) :
    handle_ap (mkPkt ssrc ts sq (h0 :: h1 :: rest)) =
      if apLoop rest = [] then none
      else some (((apLoop rest).map (fun n => startCode ++ n)).flatten) := by
  rw [handle_ap]
  rw [show List.drop 2 (mkPkt ssrc ts sq (h0 :: h1 :: rest)).payload = rest from rfl]
  by_cases h : apLoop rest = []
  · rw [h]
    simp
  · rw [if_neg (by simp [h]), if_neg h]

/-! ### The claims -/

/-- C1: for every NAL split across FU packets fed in native order with no
loss (one start packet, zero or more middles, one end packet, same SSRC and
timestamp, consecutive 16-bit sequence numbers), exactly one NAL is emitted,
at the end-bit packet, and its bytes after the Annex B prefix are the header
`(PayloadHdr & 0x81FF) | (fu_type << 9)` followed by the fragment bodies in
arrival order — for both the receiver and the extractor variants. -/
theorem c1_fu_reassembly_roundtrip :
    (∀ (h0 h1 t ssrc ts s : Nat) (now : ℚ) (body0 bodyE : List Nat)
        (mids : List (List Nat)), t < 64 → (h0 * 256 + h1) >>> 9 &&& 63 = 49 →
      Receiver.processAll [] (fuPackets h0 h1 t ssrc ts s now body0 mids bodyE) =
        ([], List.replicate (mids.length + 1) none ++
          [some (startCode ++ pack16 (((h0 * 256 + h1) &&& 33279) ||| (t <<< 9)) ++
            body0 ++ mids.flatten ++ bodyE)]))
  ∧ (∀ (h0 h1 t ssrc ts s : Nat) (body0 bodyE : List Nat) (mids : List (List Nat)),
        t < 64 → (h0 * 256 + h1) >>> 9 &&& 63 = 49 →
      Extract.processAll [] (fuPacketList h0 h1 t ssrc ts s body0 mids bodyE) =
        ([], List.replicate (mids.length + 1) none ++
          [some (startCode ++ pack16 (((h0 * 256 + h1) &&& 33279) ||| (t <<< 9)) ++
            body0 ++ mids.flatten ++ bodyE)])) :=
  ⟨fun h0 h1 t ssrc ts s now body0 bodyE mids ht h49 =>
      recvFuRun h0 h1 t ssrc ts s now body0 bodyE mids ht h49,
    fun h0 h1 t ssrc ts s body0 bodyE mids ht h49 =>
      extrFuRun h0 h1 t ssrc ts s body0 bodyE mids ht h49⟩

/-- Witness for C1 at spec scenario S3: PayloadHdr `62 01`, fu_type 19,
fragments `B0 B1` / `B2 B3` / `B4 B5`, emitting
`00 00 00 01 26 01 B0 B1 B2 B3 B4 B5` at the end packet. -/
theorem c1_witness :
    Receiver.processAll []
        (fuPackets 98 1 19 7 1000 100 0 [176, 177] [[178, 179]] [180, 181]) =
      ([], [none, none, some [0, 0, 0, 1, 38, 1, 176, 177, 178, 179, 180, 181]]) ∧
    Extract.processAll []
        (fuPacketList 98 1 19 7 1000 100 [176, 177] [[178, 179]] [180, 181]) =
      ([], [none, none, some [0, 0, 0, 1, 38, 1, 176, 177, 178, 179, 180, 181]]) := by
  constructor
  · exact (c1_fu_reassembly_roundtrip.1 98 1 19 7 1000 100 0 [176, 177] [180, 181]
      [[178, 179]] (by decide) (by decide)).trans (by decide)
  · exact (c1_fu_reassembly_roundtrip.2 98 1 19 7 1000 100 [176, 177] [180, 181]
      [[178, 179]] (by decide) (by decide)).trans (by decide)

/-- C2 counterexample: in the receiver, a second start-bit packet with the
same `(ssrc, timestamp)` but a different sequence number does NOT replace
the in-progress entry: afterwards TWO entries for `(7, 1000)` coexist and
the first entry is still present, contradicting the claimed invariant. -/
theorem c2_counterexample :
    ((Receiver.processAll [] [(mkFU 98 1 147 [176] 7 1000 100, 0),
        (mkFU 98 1 147 [177] 7 1000 105, 0)]).1.filter
      (fun kv => decide (kv.1.ssrc = 7 ∧ kv.1.ts = 1000))).length = 2 ∧
    (⟨7, 1000, 100⟩, (⟨[38, 1, 176], 100, 0⟩ : FragEntry)) ∈
      (Receiver.processAll [] [(mkFU 98 1 147 [176] 7 1000 100, 0),
        (mkFU 98 1 147 [177] 7 1000 105, 0)]).1 := by
  decide

/-- C2 amended: a start-bit packet stores its entry under the key
`(ssrc, timestamp, sequence)` in the receiver — an existing entry with the
same key is replaced, but entries with a different start sequence survive,
so several entries per `(ssrc, timestamp)` may coexist; only the offline
extractor (keyed by timestamp alone) replaces the prior entry, leaving the
new buffer as the only one stored for that timestamp. -/
theorem c2_start_replacement_policy :
    (∀ (st : FragStore) (p : RTPPacket) (now : ℚ) (kv : FragKey × FragEntry),
      ¬ p.payload.length < 3 → p.payload.getD 2 0 >>> 7 &&& 1 = 1 →
      kv ∈ st → kv.1 ≠ ⟨p.ssrc, p.timestamp, p.sequence⟩ →
      kv ∈ (Receiver.handle_fu st p now).1)
  ∧ (∀ (st : FragStore) (p : RTPPacket) (now : ℚ),
      ¬ p.payload.length < 3 → p.payload.getD 2 0 >>> 7 &&& 1 = 1 →
      (⟨⟨p.ssrc, p.timestamp, p.sequence⟩,
        ⟨pack16 (reconHeader p) ++ p.payload.drop 3, p.sequence, now⟩⟩ :
          FragKey × FragEntry) ∈ (Receiver.handle_fu st p now).1)
  ∧ (∀ (st : StoreE) (p : RTPPacket) (kv : Nat × List Nat),
      (st.map Prod.fst).Nodup →
      ¬ p.payload.length < 3 → p.payload.getD 2 0 >>> 7 &&& 1 = 1 →
      kv ∈ (Extract.handle_fu st p).1 → kv.1 = p.timestamp →
      kv.2 = pack16 (reconHeader p) ++ p.payload.drop 3) := by
  refine ⟨?_, ?_, ?_⟩
  · intro st p now kv h3 hs hmem hne
    rw [recvFuStart st p now h3 hs]
    exact insertFrag_mem_of_ne st _ _ kv hmem hne
  · intro st p now h3 hs
    rw [recvFuStart st p now h3 hs]
    exact insertFrag_self_mem st _ _
  · intro st p kv hnd h3 hs hmem hk
    rw [extrFuStart st p h3 hs] at hmem
    exact insertE_key_val st p.timestamp _ hnd kv hmem hk

/-- Witness for C2: a start packet seeds its entry, and an unrelated
pre-existing entry survives the insertion. -/
theorem c2_witness :
    (⟨⟨7, 1000, 100⟩, (⟨[38, 1, 176], 100, 0⟩ : FragEntry)⟩ : FragKey × FragEntry) ∈
      (Receiver.handle_fu [] (mkFU 98 1 147 [176] 7 1000 100) 0).1 ∧
    (⟨⟨9, 9, 9⟩, (⟨[1], 2, 0⟩ : FragEntry)⟩ : FragKey × FragEntry) ∈
      (Receiver.handle_fu [(⟨9, 9, 9⟩, ⟨[1], 2, 0⟩)]
        (mkFU 98 1 147 [176] 7 1000 100) 0).1 := by
  constructor
  · exact c2_start_replacement_policy.2.1 [] (mkFU 98 1 147 [176] 7 1000 100) 0
      (by decide) (by decide)
  · exact c2_start_replacement_policy.1 [(⟨9, 9, 9⟩, ⟨[1], 2, 0⟩)]
      (mkFU 98 1 147 [176] 7 1000 100) 0 _ (by decide) (by decide)
      (List.mem_cons_self _ _) (by decide)

/-- C3 counterexample: with two in-progress entries (last sequences 65535
and 10), an incoming middle fragment with sequence 0 is appended to the
entry with last sequence 10 (plain distance 11) instead of the entry with
last sequence 65535, whose 16-bit wraparound distance is 0 — the code's
distance is computed over unbounded integers, with no wraparound. -/
theorem c3_counterexample :
    (Receiver.processAll [] [(mkFU 98 1 147 [16] 7 1000 65535, 0),
        (mkFU 98 1 147 [32] 7 1000 10, 0),
        (mkFU 98 1 19 [238] 7 1000 0, 0)]).1 =
      [(⟨7, 1000, 65535⟩, ⟨[38, 1, 16], 65535, 0⟩),
       (⟨7, 1000, 10⟩, ⟨[38, 1, 32, 238], 0, 0⟩)] ∧
    wrapDist 0 65535 = 0 ∧ wrapDist 0 10 = 11 ∧
    Receiver.fuDist 0 65535 = 65536 ∧ Receiver.fuDist 0 10 = 11 := by
  decide

/-- C3 amended: the entry appended to minimizes the PLAIN integer distance
`abs(sequence - last_sequence - 1)` (no 16-bit wraparound) over the
candidates with matching `(ssrc, timestamp)`, first such entry on ties. -/
theorem c3_min_distance_selection :
    (∀ (st : FragStore) (p : RTPPacket),
      Receiver.fuCandidates st p ≠ [] →
      ∃ kv, minByKey (fun kv => Receiver.fuDist p.sequence kv.2.last_seq)
          (Receiver.fuCandidates st p) = some kv ∧
        kv ∈ Receiver.fuCandidates st p ∧
        ∀ kv' ∈ Receiver.fuCandidates st p,
          Receiver.fuDist p.sequence kv.2.last_seq ≤
            Receiver.fuDist p.sequence kv'.2.last_seq)
  ∧ (∀ (st : FragStore) (p : RTPPacket) (now : ℚ) (kv : FragKey × FragEntry),
      ¬ p.payload.length < 3 → p.payload.getD 2 0 >>> 7 &&& 1 ≠ 1 →
      p.payload.getD 2 0 >>> 6 &&& 1 ≠ 1 →
      minByKey (fun kv => Receiver.fuDist p.sequence kv.2.last_seq)
          (Receiver.fuCandidates st p) = some kv →
      Receiver.handle_fu st p now =
        (insertFrag st kv.1 ⟨kv.2.data ++ p.payload.drop 3, p.sequence, now⟩, none)) := by
  constructor
  · intro st p hne
    cases hm : minByKey (fun kv => Receiver.fuDist p.sequence kv.2.last_seq)
        (Receiver.fuCandidates st p) with
    | none => exact absurd (minByKey_eq_none _ _ hm) hne
    | some kv => exact ⟨kv, rfl, minByKey_mem _ _ _ hm, minByKey_le _ _ _ hm⟩
  · intro st p now kv h3 hs he hm
    exact recvFuAppend st p now kv h3 hs he hm

/-- Witness for C3: the concrete middle fragment of the counterexample run
is appended exactly to the minimizing entry. -/
theorem c3_witness :
    Receiver.handle_fu
        [(⟨7, 1000, 65535⟩, ⟨[38, 1, 16], 65535, 0⟩),
         (⟨7, 1000, 10⟩, ⟨[38, 1, 32], 10, 0⟩)]
        (mkFU 98 1 19 [238] 7 1000 0) 0 =
      (insertFrag [(⟨7, 1000, 65535⟩, ⟨[38, 1, 16], 65535, 0⟩),
         (⟨7, 1000, 10⟩, ⟨[38, 1, 32], 10, 0⟩)] ⟨7, 1000, 10⟩
        ⟨[38, 1, 32, 238], 0, 0⟩, none) :=
  c3_min_distance_selection.2
    [(⟨7, 1000, 65535⟩, ⟨[38, 1, 16], 65535, 0⟩),
     (⟨7, 1000, 10⟩, ⟨[38, 1, 32], 10, 0⟩)]
    (mkFU 98 1 19 [238] 7 1000 0) 0 (⟨7, 1000, 10⟩, ⟨[38, 1, 32], 10, 0⟩)
    (by decide) (by decide) (by decide) (by decide)

/-- C4 counterexample: an FU packet with both start and end bits set
(`FU header 0xD3`) emits nothing in that call and the Fragment Store gains
an entry, in both variants — it is not emitted immediately. -/
theorem c4_counterexample :
    (Receiver.process_packet [] (mkFU 98 1 211 [170, 187] 7 1000 100) 0).2 = none ∧
    (Receiver.process_packet [] (mkFU 98 1 211 [170, 187] 7 1000 100) 0).1 ≠ [] ∧
    (Extract.process_packet [] (mkFU 98 1 211 [170, 187] 7 1000 100)).2 = none ∧
    (Extract.process_packet [] (mkFU 98 1 211 [170, 187] 7 1000 100)).1 ≠ [] := by
  decide

/-- C4 amended: a start-and-end FU packet is handled by the start branch:
nothing is emitted in that call, and the Fragment Store is seeded with the
reconstructed header and fragment body exactly as for a plain start packet
(the end bit is ignored). -/
theorem c4_degenerate_fu_stored :
    (∀ (st : FragStore) (p : RTPPacket) (now : ℚ),
      ¬ p.payload.length < 3 → p.payload.getD 2 0 >>> 7 &&& 1 = 1 →
      p.payload.getD 2 0 >>> 6 &&& 1 = 1 →
      Receiver.handle_fu st p now =
        (insertFrag st ⟨p.ssrc, p.timestamp, p.sequence⟩
          ⟨pack16 (reconHeader p) ++ p.payload.drop 3, p.sequence, now⟩, none))
  ∧ (∀ (st : StoreE) (p : RTPPacket),
      ¬ p.payload.length < 3 → p.payload.getD 2 0 >>> 7 &&& 1 = 1 →
      p.payload.getD 2 0 >>> 6 &&& 1 = 1 →
      Extract.handle_fu st p =
        (insertE st p.timestamp (pack16 (reconHeader p) ++ p.payload.drop 3), none)) :=
  ⟨fun st p now h3 hs _ => recvFuStart st p now h3 hs,
   fun st p h3 hs _ => extrFuStart st p h3 hs⟩

/-- Witness for C4 at the counterexample packet. -/
theorem c4_witness :
    Receiver.handle_fu [] (mkFU 98 1 211 [170, 187] 7 1000 100) 0 =
      (insertFrag [] ⟨7, 1000, 100⟩ ⟨[38, 1, 170, 187], 100, 0⟩, none) ∧
    Extract.handle_fu [] (mkFU 98 1 211 [170, 187] 7 1000 100) =
      (insertE [] 1000 [38, 1, 170, 187], none) := by
  constructor
  · exact c4_degenerate_fu_stored.1 [] (mkFU 98 1 211 [170, 187] 7 1000 100) 0
      (by decide) (by decide) (by decide)
  · exact c4_degenerate_fu_stored.2 [] (mkFU 98 1 211 [170, 187] 7 1000 100)
      (by decide) (by decide) (by decide)

/-- C5 counterexample: a 12-byte datagram with the extension bit set and a
truncated extension header (the claimed `MalformedHeader` case) parses
successfully — the parser only fails on datagrams shorter than 12 bytes. -/
theorem c5_counterexample :
    RTPPacket.parse [144, 96, 0, 1, 0, 0, 0, 1, 0, 0, 0, 1] =
      some ⟨2, 0, 1, 0, 0, 96, 1, 1, 1, []⟩ ∧
    [144, 96, 0, 1, 0, 0, 0, 1, 0, 0, 0, 1].getD 0 0 >>> 4 &&& 1 = 1 ∧
    ¬ 12 + ([144, 96, 0, 1, 0, 0, 0, 1, 0, 0, 0, 1].getD 0 0 &&& 15) * 4 + 4 ≤
      ([144, 96, 0, 1, 0, 0, 0, 1, 0, 0, 0, 1] : List Nat).length := by
  decide

/-- C5 amended: the parser fails exactly when the datagram is shorter than
12 bytes; a signalled-but-truncated extension header is silently ignored
(no error), and the payload is the clamping tail at `12 + 4*cc`, extended by
`4 + 4*ext_length` only when the extension header fits in the datagram (a
computed offset past the end yields an empty payload, not an error). -/
theorem c5_parse_failure_condition :
    (∀ d : List Nat, RTPPacket.parse d = none ↔ d.length < 12)
  ∧ (∀ (d : List Nat) (v : RTPPacket), RTPPacket.parse d = some v →
      v.payload = d.drop
        (if d.getD 0 0 >>> 4 &&& 1 = 1 ∧ 12 + (d.getD 0 0 &&& 15) * 4 + 4 ≤ d.length
         then 12 + (d.getD 0 0 &&& 15) * 4 + 4 +
           4 * be16 d (12 + (d.getD 0 0 &&& 15) * 4 + 2)
         else 12 + (d.getD 0 0 &&& 15) * 4)) := by
  constructor
  · intro d
    constructor
    · intro h
      by_contra hlt
      rw [RTPPacket.parse, if_neg hlt] at h
      simp at h
    · intro h
      rw [RTPPacket.parse, if_pos h]
  · intro d v h
    by_cases hlt : d.length < 12
    · rw [RTPPacket.parse, if_pos hlt] at h
      simp at h
    · rw [RTPPacket.parse, if_neg hlt] at h
      dsimp only at h
      rw [← Option.some.inj h]

/-- Witness for C5: a 13-byte datagram with a truncated extension header is
accepted and its payload is the tail after the fixed 12-byte header. -/
theorem c5_witness :
    ¬ RTPPacket.parse [144, 96, 0, 1, 0, 0, 0, 1, 0, 0, 0, 1, 65] = none ∧
    (⟨2, 0, 1, 0, 0, 96, 1, 1, 1, [65]⟩ : RTPPacket).payload =
      [144, 96, 0, 1, 0, 0, 0, 1, 0, 0, 0, 1, 65].drop 12 := by
  constructor
  · intro hnone
    have h12 := (c5_parse_failure_condition.1
      [144, 96, 0, 1, 0, 0, 0, 1, 0, 0, 0, 1, 65]).mp hnone
    simp at h12
  · have h := c5_parse_failure_condition.2 [144, 96, 0, 1, 0, 0, 0, 1, 0, 0, 0, 1, 65]
      ⟨2, 0, 1, 0, 0, 96, 1, 1, 1, [65]⟩ (by decide)
    exact h.trans (by decide)

/-- C6: an aggregation packet packing any NAL list per RFC 7798 is parsed
back to exactly those NALs in order; a size field announcing more bytes than
remain stops parsing, silently discarding the tail while the NALs already
parsed are still emitted, each behind a 4-byte start code. -/
theorem c6_ap_roundtrip :
    (∀ nals : List (List Nat), (∀ n ∈ nals, n.length < 65536) →
      apLoop (packAP nals) = nals)
  ∧ (∀ (nals : List (List Nat)) (a b : Nat) (tail : List Nat),
      (∀ n ∈ nals, n.length < 65536) → tail.length < a * 256 + b →
      apLoop (packAP nals ++ a :: b :: tail) = nals)
  ∧ (∀ (h0 h1 ssrc ts sq : Nat) (nals : List (List Nat)),
      (∀ n ∈ nals, n.length < 65536) → nals ≠ [] →
      handle_ap (mkPkt ssrc ts sq (h0 :: h1 :: packAP nals)) =
        some ((nals.map (fun n => startCode ++ n)).flatten))
  ∧ (∀ (h0 h1 ssrc ts sq : Nat) (nals : List (List Nat)) (a b : Nat) (tail : List Nat),
      (∀ n ∈ nals, n.length < 65536) → tail.length < a * 256 + b → nals ≠ [] →
      handle_ap (mkPkt ssrc ts sq (h0 :: h1 :: (packAP nals ++ a :: b :: tail))) =
        some ((nals.map (fun n => startCode ++ n)).flatten)) := by
  refine ⟨apLoop_pack, apLoop_pack_truncated, ?_, ?_⟩
  · intro h0 h1 ssrc ts sq nals hwf hne
    rw [handle_ap_emits, apLoop_pack nals hwf, if_neg hne]
  · intro h0 h1 ssrc ts sq nals a b tail hwf htr hne
    rw [handle_ap_emits, apLoop_pack_truncated nals a b tail hwf htr, if_neg hne]

/-- Witness for C6 at spec scenario S2: AP header `60 01`, NALs `42 01 CC`
and `44 01`, emitting both NALs start-code prefixed, in order. -/
theorem c6_witness :
    handle_ap (mkPkt 5 2000 1 (96 :: 1 :: packAP [[66, 1, 204], [68, 1]])) =
      some [0, 0, 0, 1, 66, 1, 204, 0, 0, 0, 1, 68, 1] := by
  have h := c6_ap_roundtrip.2.2.1 96 1 5 2000 1 [[66, 1, 204], [68, 1]]
    (by decide) (by decide)
  exact h.trans (by decide)

/-- C7: sweeping with `now` more than 500 ms past every entry's last update
empties the receiver's Fragment Store, and entries within 500 ms of `now`
are kept. -/
theorem c7_sweep_empties :
    (∀ (st : FragStore) (now : ℚ),
      (∀ kv ∈ st, now - kv.2.timestamp > 1/2) →
      Receiver.cleanup_old_fragments st now = [])
  ∧ (∀ (st : FragStore) (now : ℚ) (kv : FragKey × FragEntry),
      kv ∈ st → now - kv.2.timestamp ≤ 1/2 →
      kv ∈ Receiver.cleanup_old_fragments st now) := by
  constructor
  · intro st now h
    rw [Receiver.cleanup_old_fragments, List.filter_eq_nil_iff]
    intro kv hkv
    simp only [decide_eq_true_eq, not_not]
    exact h kv hkv
  · intro st now kv hkv hle
    rw [Receiver.cleanup_old_fragments]
    exact List.mem_filter.mpr ⟨hkv, by simp only [decide_eq_true_eq]; exact not_lt.mpr hle⟩

/-- Witness for C7: a store whose single entry is 1 s old is emptied at
`now = 1`, and kept at `now = 1/4`. -/
theorem c7_witness :
    Receiver.cleanup_old_fragments [(⟨1, 2, 3⟩, ⟨[5], 3, 0⟩)] 1 = [] ∧
    (⟨⟨1, 2, 3⟩, (⟨[5], 3, 0⟩ : FragEntry)⟩ : FragKey × FragEntry) ∈
      Receiver.cleanup_old_fragments [(⟨1, 2, 3⟩, ⟨[5], 3, 0⟩)] (1/4) := by
  constructor
  · exact c7_sweep_empties.1 [(⟨1, 2, 3⟩, ⟨[5], 3, 0⟩)] 1 (by
      intro kv hkv
      simp only [List.mem_singleton] at hkv
      subst hkv
      show (1 : ℚ) - 0 > 1/2
      norm_num)
  · exact c7_sweep_empties.2 [(⟨1, 2, 3⟩, ⟨[5], 3, 0⟩)] (1/4) _
      (List.mem_cons_self _ _) (by
      show (1/4 : ℚ) - 0 ≤ 1/2
      norm_num)

/-- C8: an FU continuation or end packet with no matching Fragment Store
entry emits nothing, raises no error, and leaves the store unchanged, in
both variants; feeding only the middle and end fragments of scenario S3
(scenario S4) yields zero emissions and an empty store. -/
theorem c8_orphan_dropped :
    (∀ (st : FragStore) (p : RTPPacket) (now : ℚ),
      ¬ p.payload.length < 3 → p.payload.getD 2 0 >>> 7 &&& 1 ≠ 1 →
      Receiver.fuCandidates st p = [] →
      Receiver.handle_fu st p now = (st, none))
  ∧ (∀ (st : StoreE) (p : RTPPacket),
      ¬ p.payload.length < 3 → p.payload.getD 2 0 >>> 7 &&& 1 ≠ 1 →
      lookupE st p.timestamp = none →
      Extract.handle_fu st p = (st, none))
  ∧ Receiver.processAll [] [(mkFU 98 1 19 [178, 179] 7 1000 101, 0),
      (mkFU 98 1 83 [180, 181] 7 1000 102, 0)] = ([], [none, none])
  ∧ Extract.processAll [] [mkFU 98 1 19 [178, 179] 7 1000 101,
      mkFU 98 1 83 [180, 181] 7 1000 102] = ([], [none, none]) := by
  refine ⟨?_, ?_, by decide, by decide⟩
  · intro st p now h3 hs hc
    exact recvFuOrphan st p now h3 hs (by rw [hc]; rfl)
  · intro st p h3 hs hl
    exact extrFuOrphan st p h3 hs hl

/-- Witness for C8: an orphan middle fragment against a store holding only a
non-matching entry changes nothing and emits nothing. -/
theorem c8_witness :
    Receiver.handle_fu [(⟨9, 9, 9⟩, ⟨[1], 2, 0⟩)]
        (mkFU 98 1 19 [178, 179] 7 1000 101) 0 =
      ([(⟨9, 9, 9⟩, ⟨[1], 2, 0⟩)], none) ∧
    Extract.handle_fu [(9, [1])] (mkFU 98 1 19 [178, 179] 7 1000 101) =
      ([(9, [1])], none) := by
  constructor
  · exact c8_orphan_dropped.1 [(⟨9, 9, 9⟩, ⟨[1], 2, 0⟩)]
      (mkFU 98 1 19 [178, 179] 7 1000 101) 0 (by decide) (by decide) (by decide)
  · exact c8_orphan_dropped.2.1 [(9, [1])] (mkFU 98 1 19 [178, 179] 7 1000 101)
      (by decide) (by decide) (by decide)

/-- C9: every payload of length at least 2 whose NAL unit type is neither 48
nor 49 — reserved types included — is emitted unchanged as one NAL behind
the 4-byte start code, in both variants. -/
theorem c9_single_nal_passthrough :
    (∀ (st : FragStore) (p : RTPPacket) (now : ℚ),
      ¬ p.payload.length < 2 →
      be16 p.payload 0 >>> 9 &&& 63 ≠ 49 → be16 p.payload 0 >>> 9 &&& 63 ≠ 48 →
      Receiver.process_packet st p now = (st, some (startCode ++ p.payload)))
  ∧ (∀ (st : StoreE) (p : RTPPacket),
      ¬ p.payload.length < 2 →
      be16 p.payload 0 >>> 9 &&& 63 ≠ 49 → be16 p.payload 0 >>> 9 &&& 63 ≠ 48 →
      Extract.process_packet st p = (st, some (startCode ++ p.payload))) := by
  constructor
  · intro st p now h2 h49 h48
    rw [Receiver.process_packet, if_neg h2]
    dsimp only
    rw [if_neg h49, if_neg h48]
    rfl
  · intro st p h2 h49 h48
    rw [Extract.process_packet, if_neg h2]
    dsimp only
    rw [if_neg h49, if_neg h48]
    rfl

/-- Witness for C9 at spec scenario S1: payload `40 01 AA BB` (type 32)
yields `00 00 00 01 40 01 AA BB`. -/
theorem c9_witness :
    Receiver.process_packet [] (mkPkt 5 1111 1 [64, 1, 170, 187]) 0 =
      ([], some [0, 0, 0, 1, 64, 1, 170, 187]) ∧
    Extract.process_packet [] (mkPkt 5 1111 1 [64, 1, 170, 187]) =
      ([], some [0, 0, 0, 1, 64, 1, 170, 187]) := by
  constructor
  · exact (c9_single_nal_passthrough.1 [] (mkPkt 5 1111 1 [64, 1, 170, 187]) 0
      (by decide) (by decide) (by decide)).trans (by decide)
  · exact (c9_single_nal_passthrough.2 [] (mkPkt 5 1111 1 [64, 1, 170, 187])
      (by decide) (by decide) (by decide)).trans (by decide)

/-- C10: `process_packet` leaves the fragment store unchanged for every
packet whose payload is shorter than 2 bytes or whose NAL unit type is not
49; only FU packets can touch the store, in both variants. -/
theorem c10_store_untouched :
    (∀ (st : FragStore) (p : RTPPacket) (now : ℚ),
      p.payload.length < 2 ∨ be16 p.payload 0 >>> 9 &&& 63 ≠ 49 →
      (Receiver.process_packet st p now).1 = st)
  ∧ (∀ (st : StoreE) (p : RTPPacket),
      p.payload.length < 2 ∨ be16 p.payload 0 >>> 9 &&& 63 ≠ 49 →
      (Extract.process_packet st p).1 = st) := by
  constructor
  · intro st p now h
    rw [Receiver.process_packet]
    by_cases h2 : p.payload.length < 2
    · rw [if_pos h2]
    · rw [if_neg h2]
      dsimp only
      rcases h with h | h49
      · exact absurd h h2
      · rw [if_neg h49]
        by_cases h48 : be16 p.payload 0 >>> 9 &&& 63 = 48
        · rw [if_pos h48]
        · rw [if_neg h48]
  · intro st p h
    rw [Extract.process_packet]
    by_cases h2 : p.payload.length < 2
    · rw [if_pos h2]
    · rw [if_neg h2]
      dsimp only
      rcases h with h | h49
      · exact absurd h h2
      · rw [if_neg h49]
        by_cases h48 : be16 p.payload 0 >>> 9 &&& 63 = 48
        · rw [if_pos h48]
        · rw [if_neg h48]

/-- Witness for C10 at the S1 single-NAL packet. -/
theorem c10_witness :
    (Receiver.process_packet [] (mkPkt 5 1111 1 [64, 1, 170, 187]) 0).1 = [] ∧
    (Extract.process_packet [] (mkPkt 5 1111 1 [64, 1, 170, 187])).1 = [] :=
  ⟨c10_store_untouched.1 [] (mkPkt 5 1111 1 [64, 1, 170, 187]) 0 (Or.inr (by decide)),
   c10_store_untouched.2 [] (mkPkt 5 1111 1 [64, 1, 170, 187]) (Or.inr (by decide))⟩
